import Mathlib

/-!
Verification of the `japanese-vocab` Anki add-on (`src/japanese-vocab/__init__.py`).

The add-on reads fields of selected flashcard notes, calls a remote JSON API
(`call_openai_structured`) and writes one field back per note
(`generate_kanji` writes "Kanji", `generate_romaji` writes "Romanji").

Shallow embedding: a note is an association list of field names to strings
(Python's `"Kana" in note`, `note["Kana"]`, `note["Kanji"] = v` map to
lookup, read and update on that list); the remote API is an oracle argument;
Python's `str.strip()` is `pyStrip`; Python truthiness of a string is
comparison with `""`; a JSON object's `response.get(key)` is an
`Option String` (`none` models both an absent key and a JSON `null`, which
`dict.get` does not distinguish).
-/

namespace AnkiTools

/-- A flashcard note: ordered association list from field name to field
value, modelling the anki `Note` mapping interface the add-on uses. -/
structure Note where
  fields : List (String × String)
deriving DecidableEq, Repr

/-- Field lookup, modelling `note[key]` when present (`List.lookup` finds
the first matching field, anki field names are unique). -/
def Note.get? (n : Note) (k : String) : Option String :=
  n.fields.lookup k

/-- Models Python's `key in note`. -/
def Note.hasField (n : Note) (k : String) : Bool :=
  (n.get? k).isSome

/-- `note[key]` under a `hasField` guard (defaults to `""` when absent;
the code only reads fields it has checked for membership). -/
def Note.getField (n : Note) (k : String) : String :=
  (n.get? k).getD ""

/-- Models `note[key] = v` on an existing field: replaces the value of
every field named `k`, leaves the rest untouched. -/
def Note.set (n : Note) (k v : String) : Note :=
  ⟨n.fields.map (fun p => if p.1 = k then (k, v) else p)⟩

/-- Python's `str.strip()`: the string with leading and trailing
whitespace removed. (`String.trim` would also model it but does not
reduce in the kernel, so concrete instances could not be checked.) -/
def pyStrip (s : String) : String :=
  ⟨((s.data.dropWhile Char.isWhitespace).reverse.dropWhile
      Char.isWhitespace).reverse⟩

/-- Outcome of one `call_openai_structured` invocation as observed by the
per-note loop: `err` models a raised exception, `ok val` a returned JSON
object whose relevant key (`"kanji"` resp. `"romaji"`) looks up to `val`
(`none` for absent or `null`). -/
inductive ApiOutcome where
  | ok (val : Option String)
  | err
deriving DecidableEq, Repr

/-- Observable effect of one iteration of the per-note loop: the state of
the note object afterwards, whether `note.flush()` ran, and the increments
to the `processed` and `errors` counters. -/
structure StepResult where
  note : Note
  flushed : Bool
  processedInc : Nat
  errorsInc : Nat
deriving DecidableEq, Repr

/-- Default note for `List.getD`. -/
def dNote : Note := ⟨[]⟩

/-- Default step result for `List.getD`. -/
def dStep : StepResult := ⟨dNote, false, 0, 0⟩

/-- One iteration of the `generate_kanji` loop body
(`__init__.py` lines 140-175) on one note, given the API outcome:
skip when a field is missing, when the stripped `Kana` or `English` is
empty or the stripped `Kanji` is non-empty; otherwise consult the API and
write `Kanji` back when the response's `kanji` value is truthy. -/
def kanjiStep (api : ApiOutcome) (note : Note) : StepResult :=
  if note.hasField "Kana" = false ∨ note.hasField "English" = false ∨
      note.hasField "Kanji" = false then
    ⟨note, false, 0, 0⟩
  else
    let kana := pyStrip (note.getField "Kana")
    let english := pyStrip (note.getField "English")
    let currentKanji := pyStrip (note.getField "Kanji")
    if kana = "" ∨ english = "" ∨ currentKanji ≠ "" then
      ⟨note, false, 0, 0⟩
    else
      match api with
      | ApiOutcome.err => ⟨note, false, 0, 1⟩
      | ApiOutcome.ok none => ⟨note, false, 0, 0⟩
      | ApiOutcome.ok (some s) =>
          if s = "" then ⟨note, false, 0, 0⟩
          else ⟨note.set "Kanji" s, true, 1, 0⟩

/-- One iteration of the `generate_romaji` loop body
(`__init__.py` lines 211-248) on one note. -/
def romajiStep (api : ApiOutcome) (note : Note) : StepResult :=
  if note.hasField "Kana" = false ∨ note.hasField "Romanji" = false then
    ⟨note, false, 0, 0⟩
  else
    let kana := pyStrip (note.getField "Kana")
    let currentRomaji := pyStrip (note.getField "Romanji")
    if kana = "" ∨ currentRomaji ≠ "" then
      ⟨note, false, 0, 0⟩
    else
      match api with
      | ApiOutcome.err => ⟨note, false, 0, 1⟩
      | ApiOutcome.ok none => ⟨note, false, 0, 0⟩
      | ApiOutcome.ok (some s) =>
          if s = "" then ⟨note, false, 0, 0⟩
          else ⟨note.set "Romanji" s, true, 1, 0⟩

/-- The per-note loop `for note in notes`, one step result per note; the
oracle is indexed by the note's position so each iteration's API call can
behave differently. -/
def runSteps (step : ApiOutcome → Note → StepResult)
    (api : Nat → ApiOutcome) : Nat → List Note → List StepResult
  | _, [] => []
  | i, n :: rest => step (api i) n :: runSteps step api (i + 1) rest

/-- The `generate_kanji` loop over a list of selected notes. -/
def runKanji (api : Nat → ApiOutcome) (notes : List Note) : List StepResult :=
  runSteps kanjiStep api 0 notes

/-- The `generate_romaji` loop over a list of selected notes. -/
def runRomaji (api : Nat → ApiOutcome) (notes : List Note) : List StepResult :=
  runSteps romajiStep api 0 notes

/-- The `processed` total reported by the final tooltip. -/
def processedCount (rs : List StepResult) : Nat :=
  (rs.map StepResult.processedInc).sum

/-- The `errors` total reported at the end of a run. -/
def errorCount (rs : List StepResult) : Nat :=
  (rs.map StepResult.errorsInc).sum

/-- The fields-present and skip-condition guards of the `generate_kanji`
loop body (lines 142-151): all three fields exist, stripped `Kana` and
`English` are non-empty, stripped `Kanji` is empty. -/
abbrev kanjiGuards (n : Note) : Prop :=
  n.hasField "Kana" = true ∧ n.hasField "English" = true ∧
  n.hasField "Kanji" = true ∧
  pyStrip (n.getField "Kana") ≠ "" ∧ pyStrip (n.getField "English") ≠ "" ∧
  pyStrip (n.getField "Kanji") = ""

/-- The guards of the `generate_romaji` loop body (lines 213-221). -/
abbrev romajiGuards (n : Note) : Prop :=
  n.hasField "Kana" = true ∧ n.hasField "Romanji" = true ∧
  pyStrip (n.getField "Kana") ≠ "" ∧ pyStrip (n.getField "Romanji") = ""

/-- A top-level widget as `get_selected_notes` sees it: whether it has a
`selectedNotes` attribute, whether it is visible, and the note ids its
`selectedNotes()` would return. -/
structure Window where
  hasSelectedNotes : Bool
  isVisible : Bool
  selectedNotes : List Nat
deriving DecidableEq, Repr

/-- The browser-search loop of `get_selected_notes` (lines 74-78): first
visible window with a `selectedNotes` attribute. -/
def findBrowser : List Window → Option Window
  | [] => none
  | w :: ws =>
      if w.hasSelectedNotes && w.isVisible then some w else findBrowser ws

/-- `get_selected_notes` (lines 71-87): empty when no browser is found or
its selection is empty, otherwise the selected ids fetched from the
collection `col`. -/
def get_selected_notes (windows : List Window) (col : Nat → Note) :
    List Note :=
  match findBrowser windows with
  | none => []
  | some b =>
      if b.selectedNotes.isEmpty then [] else b.selectedNotes.map col

/-- `generate_kanji` (lines 118-186) from selection discovery onward: the
key-configuration and import guards before it return early without
touching any note and are not modelled. -/
def generate_kanji (windows : List Window) (col : Nat → Note)
    (api : Nat → ApiOutcome) : List StepResult :=
  let notes := get_selected_notes windows col
  if notes.isEmpty then [] else runKanji api notes

/-- `generate_romaji` (lines 189-259) from selection discovery onward. -/
def generate_romaji (windows : List Window) (col : Nat → Note)
    (api : Nat → ApiOutcome) : List StepResult :=
  let notes := get_selected_notes windows col
  if notes.isEmpty then [] else runRomaji api notes

/-- What one attempt of the retry loop of `call_openai_structured` can do:
the HTTP request raises (`reqErr`), the response text fails to parse as
JSON (`parseErr`), or a parsed value `v` is obtained (`ok v`). -/
inductive Attempt (α : Type) where
  | reqErr
  | parseErr
  | ok (v : α)
deriving DecidableEq, Repr

/-- The observable result of `call_openai_structured`: a returned parsed
value, a propagated exception, or Python's implicit `None` when the loop
runs zero times (`max_retries = 0`). -/
inductive CallResult (α : Type) where
  | ret (v : α)
  | raised
  | retNone
deriving DecidableEq, Repr

/-- The retry loop body of `call_openai_structured` (lines 92-115) over the
remaining attempt indices: on success return the parsed value; on a request
exception or JSON parse failure, raise if this is attempt
`max_retries - 1`, otherwise continue with the next attempt. -/
def callGo {α : Type} (attempts : Nat → Attempt α) (m : Nat) :
    List Nat → CallResult α
  | [] => CallResult.retNone
  | i :: rest =>
      match attempts i with
      | Attempt.ok v => CallResult.ret v
      | Attempt.parseErr =>
          if i = m - 1 then CallResult.raised else callGo attempts m rest
      | Attempt.reqErr =>
          if i = m - 1 then CallResult.raised else callGo attempts m rest

/-- `call_openai_structured` (lines 90-115): `for attempt in
range(max_retries)` with the retry logic of `callGo`; the oracle
`attempts` gives the outcome of the single API request each iteration
issues. -/
def call_openai_structured {α : Type} (attempts : Nat → Attempt α)
    (max_retries : Nat) : CallResult α :=
  callGo attempts max_retries (List.range max_retries)

/-! ### Helper lemmas about the loop bodies -/

theorem kanjiStep_missing (api : ApiOutcome) (n : Note)
    (h : n.hasField "Kana" = false ∨ n.hasField "English" = false ∨
      n.hasField "Kanji" = false) :
    kanjiStep api n = ⟨n, false, 0, 0⟩ := by
  simp only [kanjiStep, if_pos h]

theorem kanjiStep_skip (api : ApiOutcome) (n : Note)
    (h1 : n.hasField "Kana" = true) (h2 : n.hasField "English" = true)
    (h3 : n.hasField "Kanji" = true)
    (hs : pyStrip (n.getField "Kana") = "" ∨ pyStrip (n.getField "English") = "" ∨
      pyStrip (n.getField "Kanji") ≠ "") :
    kanjiStep api n = ⟨n, false, 0, 0⟩ := by
  have hnot : ¬(n.hasField "Kana" = false ∨ n.hasField "English" = false ∨
      n.hasField "Kanji" = false) := by simp [h1, h2, h3]
  simp only [kanjiStep, if_neg hnot, if_pos hs]

theorem kanjiStep_err (n : Note) (hg : kanjiGuards n) :
    kanjiStep ApiOutcome.err n = ⟨n, false, 0, 1⟩ := by
  obtain ⟨h1, h2, h3, h4, h5, h6⟩ := hg
  have hnot : ¬(n.hasField "Kana" = false ∨ n.hasField "English" = false ∨
      n.hasField "Kanji" = false) := by simp [h1, h2, h3]
  have hskip : ¬(pyStrip (n.getField "Kana") = "" ∨
      pyStrip (n.getField "English") = "" ∨ pyStrip (n.getField "Kanji") ≠ "") := by
    simp [h4, h5, h6]
  simp only [kanjiStep, if_neg hnot, if_neg hskip]

theorem kanjiStep_none (n : Note) (hg : kanjiGuards n) :
    kanjiStep (ApiOutcome.ok none) n = ⟨n, false, 0, 0⟩ := by
  obtain ⟨h1, h2, h3, h4, h5, h6⟩ := hg
  have hnot : ¬(n.hasField "Kana" = false ∨ n.hasField "English" = false ∨
      n.hasField "Kanji" = false) := by simp [h1, h2, h3]
  have hskip : ¬(pyStrip (n.getField "Kana") = "" ∨
      pyStrip (n.getField "English") = "" ∨ pyStrip (n.getField "Kanji") ≠ "") := by
    simp [h4, h5, h6]
  simp only [kanjiStep, if_neg hnot, if_neg hskip]

theorem kanjiStep_some (n : Note) (s : String) (hg : kanjiGuards n) :
    kanjiStep (ApiOutcome.ok (some s)) n =
      if s = "" then ⟨n, false, 0, 0⟩ else ⟨n.set "Kanji" s, true, 1, 0⟩ := by
  obtain ⟨h1, h2, h3, h4, h5, h6⟩ := hg
  have hnot : ¬(n.hasField "Kana" = false ∨ n.hasField "English" = false ∨
      n.hasField "Kanji" = false) := by simp [h1, h2, h3]
  have hskip : ¬(pyStrip (n.getField "Kana") = "" ∨
      pyStrip (n.getField "English") = "" ∨ pyStrip (n.getField "Kanji") ≠ "") := by
    simp [h4, h5, h6]
  simp only [kanjiStep, if_neg hnot, if_neg hskip]

theorem romajiStep_missing (api : ApiOutcome) (n : Note)
    (h : n.hasField "Kana" = false ∨ n.hasField "Romanji" = false) :
    romajiStep api n = ⟨n, false, 0, 0⟩ := by
  simp only [romajiStep, if_pos h]

theorem romajiStep_skip (api : ApiOutcome) (n : Note)
    (h1 : n.hasField "Kana" = true) (h2 : n.hasField "Romanji" = true)
    (hs : pyStrip (n.getField "Kana") = "" ∨
      pyStrip (n.getField "Romanji") ≠ "") :
    romajiStep api n = ⟨n, false, 0, 0⟩ := by
  have hnot : ¬(n.hasField "Kana" = false ∨ n.hasField "Romanji" = false) := by
    simp [h1, h2]
  simp only [romajiStep, if_neg hnot, if_pos hs]

theorem romajiStep_err (n : Note) (hg : romajiGuards n) :
    romajiStep ApiOutcome.err n = ⟨n, false, 0, 1⟩ := by
  obtain ⟨h1, h2, h3, h4⟩ := hg
  have hnot : ¬(n.hasField "Kana" = false ∨ n.hasField "Romanji" = false) := by
    simp [h1, h2]
  have hskip : ¬(pyStrip (n.getField "Kana") = "" ∨
      pyStrip (n.getField "Romanji") ≠ "") := by simp [h3, h4]
  simp only [romajiStep, if_neg hnot, if_neg hskip]

theorem romajiStep_none (n : Note) (hg : romajiGuards n) :
    romajiStep (ApiOutcome.ok none) n = ⟨n, false, 0, 0⟩ := by
  obtain ⟨h1, h2, h3, h4⟩ := hg
  have hnot : ¬(n.hasField "Kana" = false ∨ n.hasField "Romanji" = false) := by
    simp [h1, h2]
  have hskip : ¬(pyStrip (n.getField "Kana") = "" ∨
      pyStrip (n.getField "Romanji") ≠ "") := by simp [h3, h4]
  simp only [romajiStep, if_neg hnot, if_neg hskip]

theorem romajiStep_some (n : Note) (s : String) (hg : romajiGuards n) :
    romajiStep (ApiOutcome.ok (some s)) n =
      if s = "" then ⟨n, false, 0, 0⟩
      else ⟨n.set "Romanji" s, true, 1, 0⟩ := by
  obtain ⟨h1, h2, h3, h4⟩ := hg
  have hnot : ¬(n.hasField "Kana" = false ∨ n.hasField "Romanji" = false) := by
    simp [h1, h2]
  have hskip : ¬(pyStrip (n.getField "Kana") = "" ∨
      pyStrip (n.getField "Romanji") ≠ "") := by simp [h3, h4]
  simp only [romajiStep, if_neg hnot, if_neg hskip]

theorem runSteps_length (step : ApiOutcome → Note → StepResult)
    (api : Nat → ApiOutcome) (j : Nat) (notes : List Note) :
    (runSteps step api j notes).length = notes.length := by
  induction notes generalizing j with
  | nil => rfl
  | cons n rest ih => simp [runSteps, ih]

theorem runSteps_getD (step : ApiOutcome → Note → StepResult)
    (api : Nat → ApiOutcome) (j i : Nat) (notes : List Note)
    (h : i < notes.length) :
    (runSteps step api j notes).getD i dStep =
      step (api (j + i)) (notes.getD i dNote) := by
  induction notes generalizing j i with
  | nil => simp at h
  | cons n rest ih =>
      cases i with
      | zero => simp [runSteps]
      | succ i =>
          have hi : i < rest.length := by simpa using h
          simp only [runSteps, List.getD_cons_succ]
          rw [ih (j + 1) i hi]
          have : j + 1 + i = j + (i + 1) := by omega
          rw [this]

theorem lookup_map_set_self (l : List (String × String)) (k v : String)
    (h : (l.lookup k).isSome = true) :
    (l.map (fun p => if p.1 = k then (k, v) else p)).lookup k = some v := by
  induction l with
  | nil => simp at h
  | cons p rest ih =>
      obtain ⟨a, b⟩ := p
      by_cases hp : a = k
      · subst hp
        simp
      · have hk : (k == a) = false := by simp [Ne.symm hp]
        have h' : (rest.lookup k).isSome = true := by
          rw [List.lookup_cons, hk] at h
          exact h
        rw [List.map_cons, if_neg hp, List.lookup_cons, hk]
        exact ih h'

theorem lookup_map_set_other (l : List (String × String)) (k v f : String)
    (hf : f ≠ k) :
    (l.map (fun p => if p.1 = k then (k, v) else p)).lookup f =
      l.lookup f := by
  induction l with
  | nil => simp
  | cons p rest ih =>
      obtain ⟨a, b⟩ := p
      by_cases hp : a = k
      · subst hp
        have hfa : (f == a) = false := by simp [hf]
        rw [List.map_cons, if_pos rfl, List.lookup_cons, hfa,
          List.lookup_cons, hfa]
        exact ih
      · by_cases hfp : f = a
        · subst hfp
          have hfa : (f == f) = true := by simp
          rw [List.map_cons, if_neg hp, List.lookup_cons, hfa,
            List.lookup_cons, hfa]
        · have hfa : (f == a) = false := by simp [hfp]
          rw [List.map_cons, if_neg hp, List.lookup_cons, hfa,
            List.lookup_cons, hfa]
          exact ih

theorem Note.get?_set_self (n : Note) (k v : String)
    (h : n.hasField k = true) : (n.set k v).get? k = some v :=
  lookup_map_set_self n.fields k v h

theorem Note.get?_set_other (n : Note) (k v f : String) (hf : f ≠ k) :
    (n.set k v).get? f = n.get? f :=
  lookup_map_set_other n.fields k v f hf

theorem getD_le_sum (f : StepResult → Nat) (rs : List StepResult) (i : Nat)
    (d : StepResult) (h : i < rs.length) :
    f (rs.getD i d) ≤ (rs.map f).sum := by
  induction rs generalizing i with
  | nil => simp at h
  | cons r rest ih =>
      cases i with
      | zero =>
          simp only [List.getD_cons_zero, List.map_cons, List.sum_cons]
          exact Nat.le_add_right _ _
      | succ i =>
          have hi : i < rest.length := by simpa using h
          simp only [List.getD_cons_succ, List.map_cons, List.sum_cons]
          exact le_trans (ih i hi) (Nat.le_add_left _ _)

/-! ### Helper lemmas about the retry loop -/

theorem callGo_congr {α : Type} (a a' : Nat → Attempt α) (m : Nat) :
    ∀ n i, i + n = m → (∀ k, k < m → a k = a' k) →
      callGo a m (List.range' i n) = callGo a' m (List.range' i n) := by
  intro n
  induction n with
  | zero => intro i _ _; simp [callGo]
  | succ n ih =>
      intro i hin hag
      rw [List.range'_succ]
      have him : i < m := by omega
      simp only [callGo]
      rw [hag i him]
      cases a' i with
      | ok v => rfl
      | parseErr =>
          by_cases hi : i = m - 1
          · simp [hi]
          · simp only [if_neg hi]
            exact ih (i + 1) (by omega) hag
      | reqErr =>
          by_cases hi : i = m - 1
          · simp [hi]
          · simp only [if_neg hi]
            exact ih (i + 1) (by omega) hag

theorem callGo_all_fail {α : Type} (a : Nat → Attempt α) (m : Nat) :
    ∀ n i, i + n = m → 1 ≤ n →
      (∀ k, i ≤ k → k < m → ∀ v, a k ≠ Attempt.ok v) →
      callGo a m (List.range' i n) = CallResult.raised := by
  intro n
  induction n with
  | zero => intro i _ h1 _; omega
  | succ n ih =>
      intro i hin _ hfail
      rw [List.range'_succ]
      have him : i < m := by omega
      cases hA : a i with
      | ok v => exact absurd hA (hfail i le_rfl him v)
      | parseErr =>
          simp only [callGo, hA]
          by_cases hi : i = m - 1
          · simp [hi]
          · have hn : 1 ≤ n := by omega
            rw [if_neg hi]
            exact ih (i + 1) (by omega) hn
              (fun k hk1 hk2 v => hfail k (by omega) hk2 v)
      | reqErr =>
          simp only [callGo, hA]
          by_cases hi : i = m - 1
          · simp [hi]
          · have hn : 1 ≤ n := by omega
            rw [if_neg hi]
            exact ih (i + 1) (by omega) hn
              (fun k hk1 hk2 v => hfail k (by omega) hk2 v)

theorem callGo_first_ok {α : Type} (a : Nat → Attempt α) (m : Nat) (v : α) :
    ∀ n i j, i + n = m → i ≤ j → j < m → a j = Attempt.ok v →
      (∀ k, i ≤ k → k < j → ∀ w, a k ≠ Attempt.ok w) →
      callGo a m (List.range' i n) = CallResult.ret v := by
  intro n
  induction n with
  | zero => intro i j hin hij hjm _ _; omega
  | succ n ih =>
      intro i j hin hij hjm hok hbefore
      rw [List.range'_succ]
      by_cases hji : j = i
      · subst hji
        simp only [callGo, hok]
      · have hij' : i < j := by omega
        cases hA : a i with
        | ok w => exact absurd hA (hbefore i le_rfl hij' w)
        | parseErr =>
            simp only [callGo, hA]
            have hi : ¬i = m - 1 := by omega
            rw [if_neg hi]
            exact ih (i + 1) j (by omega) (by omega) hjm hok
              (fun k hk1 hk2 w => hbefore k (by omega) hk2 w)
        | reqErr =>
            simp only [callGo, hA]
            have hi : ¬i = m - 1 := by omega
            rw [if_neg hi]
            exact ih (i + 1) j (by omega) (by omega) hjm hok
              (fun k hk1 hk2 w => hbefore k (by omega) hk2 w)

/-! ### Concrete notes used in witnesses and counterexamples -/

/-- A note with all three kanji-operation fields, non-empty `Kana`, empty
`Kanji`, but an empty `English` field. -/
def noteEmptyEnglish : Note :=
  ⟨[("Kana", "ka"), ("English", ""), ("Kanji", "")]⟩

/-- A note meeting every `generate_kanji` guard. -/
def noteK : Note := ⟨[("Kana", "ka"), ("English", "word"), ("Kanji", "")]⟩

/-- A note meeting every `generate_romaji` guard. -/
def noteR : Note := ⟨[("Kana", "ka"), ("Romanji", "")]⟩

/-- A note that already has a kanji spelling. -/
def noteKDone : Note := ⟨[("Kana", "ka"), ("English", "word"), ("Kanji", "X")]⟩

/-- A note that already has a romaji transliteration. -/
def noteRDone : Note := ⟨[("Kana", "ka"), ("Romanji", "ka")]⟩

/-! ### Claim theorems -/

/-- C1: with `max_retries ≥ 1`, `call_openai_structured` consults only the
outcomes of the first `max_retries` attempts (at most `max_retries`
attempts are made, each issuing one request); it returns the parsed body
of the first attempt that both succeeds and parses — so a parse failure on
a non-final attempt just moves on to the next attempt — and it raises when
every attempt up to the final one fails. -/
theorem call_openai_structured_retry_spec {α : Type}
    (attempts attempts' : Nat → Attempt α) (m : Nat) (hm : 1 ≤ m) :
    ((∀ k, k < m → attempts k = attempts' k) →
        call_openai_structured attempts m =
          call_openai_structured attempts' m)
  ∧ (∀ j v, j < m → attempts j = Attempt.ok v →
        (∀ k, k < j → ∀ w, attempts k ≠ Attempt.ok w) →
        call_openai_structured attempts m = CallResult.ret v)
  ∧ ((∀ k, k < m → ∀ v, attempts k ≠ Attempt.ok v) →
        call_openai_structured attempts m = CallResult.raised) := by
  refine ⟨?_, ?_, ?_⟩
  · intro hag
    unfold call_openai_structured
    rw [List.range_eq_range']
    exact callGo_congr attempts attempts' m m 0 (by omega) hag
  · intro j v hjm hok hbefore
    unfold call_openai_structured
    rw [List.range_eq_range']
    exact callGo_first_ok attempts m v m 0 j (by omega) (by omega) hjm hok
      (fun k hk1 hk2 w => hbefore k hk2 w)
  · intro hfail
    unfold call_openai_structured
    rw [List.range_eq_range']
    exact callGo_all_fail attempts m m 0 (by omega) hm
      (fun k hk1 hk2 v => hfail k hk2 v)

/-- C1 witness: with two attempts, a parse failure on attempt 0 followed
by a successful parse on attempt 1 returns the parsed value, and two
failed attempts raise. -/
theorem call_openai_structured_retry_spec_witness :
    call_openai_structured
        (fun i => if i = 0 then Attempt.parseErr else Attempt.ok (7 : Nat)) 2
      = CallResult.ret 7 ∧
    call_openai_structured (fun _ => (Attempt.reqErr : Attempt Nat)) 2
      = CallResult.raised := by
  constructor
  · exact (call_openai_structured_retry_spec
        (fun i => if i = 0 then Attempt.parseErr else Attempt.ok (7 : Nat))
        (fun i => if i = 0 then Attempt.parseErr else Attempt.ok (7 : Nat))
        2 (by omega)).2.1 1 7 (by omega) (by simp)
        (by
          intro k hk w
          have hk0 : k = 0 := by omega
          subst hk0
          simp)
  · exact (call_openai_structured_retry_spec (fun _ => Attempt.reqErr)
        (fun _ => Attempt.reqErr) 2 (by omega)).2.2
        (by intro k hk v; simp)

/-- C2 counterexample: a selected note that has the `Kana`, `English` and
`Kanji` fields, a non-empty stripped `Kana` and an empty `Kanji`, but an
empty `English` field, is NOT processed: `generate_kanji` skips it
unchanged (no write, no flush, nothing counted), even when the API would
have returned a kanji. -/
theorem generate_kanji_empty_english_counterexample :
    noteEmptyEnglish.hasField "Kana" = true ∧
    noteEmptyEnglish.hasField "English" = true ∧
    noteEmptyEnglish.hasField "Kanji" = true ∧
    pyStrip (noteEmptyEnglish.getField "Kana") ≠ "" ∧
    pyStrip (noteEmptyEnglish.getField "Kanji") = "" ∧
    runKanji (fun _ => ApiOutcome.ok (some "X")) [noteEmptyEnglish]
      = [⟨noteEmptyEnglish, false, 0, 0⟩] := by
  decide

/-- C2 (amended): a selected note with the `Kana`, `English` and `Kanji`
fields, non-empty stripped `Kana` AND non-empty stripped `English`, and
empty stripped `Kanji` is processed: its step consults the API and writes
the kanji back (flushing and counting it) whenever the response's kanji
value is a non-empty string; an empty `English` field causes the note to
be skipped instead. -/
theorem generate_kanji_processed_spec (api : Nat → ApiOutcome)
    (notes : List Note) (i : Nat) (hi : i < notes.length)
    (hg : kanjiGuards (notes.getD i dNote)) :
    (api i = ApiOutcome.err →
        (runKanji api notes).getD i dStep = ⟨notes.getD i dNote, false, 0, 1⟩)
  ∧ (api i = ApiOutcome.ok none →
        (runKanji api notes).getD i dStep = ⟨notes.getD i dNote, false, 0, 0⟩)
  ∧ (∀ s, api i = ApiOutcome.ok (some s) → s ≠ "" →
        (runKanji api notes).getD i dStep =
          ⟨(notes.getD i dNote).set "Kanji" s, true, 1, 0⟩)
  ∧ (∀ s, api i = ApiOutcome.ok (some s) → s = "" →
        (runKanji api notes).getD i dStep =
          ⟨notes.getD i dNote, false, 0, 0⟩) := by
  have hrun : (runKanji api notes).getD i dStep =
      kanjiStep (api i) (notes.getD i dNote) := by
    unfold runKanji
    rw [runSteps_getD kanjiStep api 0 i notes hi]
    simp
  refine ⟨?_, ?_, ?_, ?_⟩
  · intro ha
    rw [hrun, ha, kanjiStep_err _ hg]
  · intro ha
    rw [hrun, ha, kanjiStep_none _ hg]
  · intro s ha hs
    rw [hrun, ha, kanjiStep_some _ s hg, if_neg hs]
  · intro s ha hs
    rw [hrun, ha, kanjiStep_some _ s hg, if_pos hs]

/-- C2 amended-claim witness: the single selected note with `Kana` "ka",
`English` "word" and empty `Kanji` is written back and counted when the
API returns "X". -/
theorem generate_kanji_processed_spec_witness :
    (runKanji (fun _ => ApiOutcome.ok (some "X")) [noteK]).getD 0 dStep
      = ⟨noteK.set "Kanji" "X", true, 1, 0⟩ :=
  (generate_kanji_processed_spec (fun _ => ApiOutcome.ok (some "X"))
    [noteK] 0 (by decide) (by decide)).2.2.1 "X" rfl (by decide)

/-- C3: neither operation overwrites an existing value: a selected note
whose stripped `Kanji` field is non-empty is left completely unchanged by
the `generate_kanji` loop (no write, no flush, no count), and one whose
stripped `Romanji` field is non-empty is left completely unchanged by the
`generate_romaji` loop. -/
theorem no_overwrite_spec (api : Nat → ApiOutcome) (notes : List Note)
    (i : Nat) (hi : i < notes.length) :
    (pyStrip ((notes.getD i dNote).getField "Kanji") ≠ "" →
        (runKanji api notes).getD i dStep = ⟨notes.getD i dNote, false, 0, 0⟩)
  ∧ (pyStrip ((notes.getD i dNote).getField "Romanji") ≠ "" →
        (runRomaji api notes).getD i dStep =
          ⟨notes.getD i dNote, false, 0, 0⟩) := by
  have hrunK : (runKanji api notes).getD i dStep =
      kanjiStep (api i) (notes.getD i dNote) := by
    unfold runKanji
    rw [runSteps_getD kanjiStep api 0 i notes hi]
    simp
  have hrunR : (runRomaji api notes).getD i dStep =
      romajiStep (api i) (notes.getD i dNote) := by
    unfold runRomaji
    rw [runSteps_getD romajiStep api 0 i notes hi]
    simp
  constructor
  · intro hk
    rw [hrunK]
    cases hb1 : (notes.getD i dNote).hasField "Kana" with
    | false => exact kanjiStep_missing _ _ (Or.inl hb1)
    | true =>
        cases hb2 : (notes.getD i dNote).hasField "English" with
        | false => exact kanjiStep_missing _ _ (Or.inr (Or.inl hb2))
        | true =>
            cases hb3 : (notes.getD i dNote).hasField "Kanji" with
            | false => exact kanjiStep_missing _ _ (Or.inr (Or.inr hb3))
            | true =>
                exact kanjiStep_skip _ _ hb1 hb2 hb3 (Or.inr (Or.inr hk))
  · intro hr
    rw [hrunR]
    cases hb1 : (notes.getD i dNote).hasField "Kana" with
    | false => exact romajiStep_missing _ _ (Or.inl hb1)
    | true =>
        cases hb2 : (notes.getD i dNote).hasField "Romanji" with
        | false => exact romajiStep_missing _ _ (Or.inr hb2)
        | true => exact romajiStep_skip _ _ hb1 hb2 (Or.inr hr)

/-- C3 witness: a note that already has a kanji, and one that already has
a romaji, are left untouched even when the API would answer. -/
theorem no_overwrite_spec_witness :
    (runKanji (fun _ => ApiOutcome.ok (some "Y")) [noteKDone]).getD 0 dStep
      = ⟨noteKDone, false, 0, 0⟩ ∧
    (runRomaji (fun _ => ApiOutcome.ok (some "y")) [noteRDone]).getD 0 dStep
      = ⟨noteRDone, false, 0, 0⟩ :=
  ⟨(no_overwrite_spec (fun _ => ApiOutcome.ok (some "Y")) [noteKDone] 0
      (by decide)).1 (by decide),
   (no_overwrite_spec (fun _ => ApiOutcome.ok (some "y")) [noteRDone] 0
      (by decide)).2 (by decide)⟩

/-- C4: when the API call for a guarded selected note returns a non-empty
result string, that string is written into the note's target field
(`Kanji` for `generate_kanji`, `Romanji` for `generate_romaji`), the note
is flushed, and the note counts toward the reported `processed` total. -/
theorem api_result_written_spec (api : Nat → ApiOutcome) (notes : List Note)
    (i : Nat) (s : String) (hi : i < notes.length) (hs : s ≠ "")
    (ha : api i = ApiOutcome.ok (some s)) :
    (kanjiGuards (notes.getD i dNote) →
        (runKanji api notes).getD i dStep =
          ⟨(notes.getD i dNote).set "Kanji" s, true, 1, 0⟩
      ∧ 1 ≤ processedCount (runKanji api notes))
  ∧ (romajiGuards (notes.getD i dNote) →
        (runRomaji api notes).getD i dStep =
          ⟨(notes.getD i dNote).set "Romanji" s, true, 1, 0⟩
      ∧ 1 ≤ processedCount (runRomaji api notes)) := by
  constructor
  · intro hg
    have heq : (runKanji api notes).getD i dStep =
        ⟨(notes.getD i dNote).set "Kanji" s, true, 1, 0⟩ := by
      unfold runKanji
      rw [runSteps_getD kanjiStep api 0 i notes hi]
      simp only [Nat.zero_add]
      rw [ha, kanjiStep_some _ s hg, if_neg hs]
    refine ⟨heq, ?_⟩
    have hlen : i < (runKanji api notes).length := by
      unfold runKanji
      rw [runSteps_length]
      exact hi
    have hb := getD_le_sum StepResult.processedInc (runKanji api notes) i
      dStep hlen
    rw [heq] at hb
    simpa [processedCount] using hb
  · intro hg
    have heq : (runRomaji api notes).getD i dStep =
        ⟨(notes.getD i dNote).set "Romanji" s, true, 1, 0⟩ := by
      unfold runRomaji
      rw [runSteps_getD romajiStep api 0 i notes hi]
      simp only [Nat.zero_add]
      rw [ha, romajiStep_some _ s hg, if_neg hs]
    refine ⟨heq, ?_⟩
    have hlen : i < (runRomaji api notes).length := by
      unfold runRomaji
      rw [runSteps_length]
      exact hi
    have hb := getD_le_sum StepResult.processedInc (runRomaji api notes) i
      dStep hlen
    rw [heq] at hb
    simpa [processedCount] using hb

/-- C4 witness: concrete one-note runs where the API answers "X" resp.
"ka": the target field is written, the note flushed and counted. -/
theorem api_result_written_spec_witness :
    ((runKanji (fun _ => ApiOutcome.ok (some "X")) [noteK]).getD 0 dStep =
        ⟨noteK.set "Kanji" "X", true, 1, 0⟩
      ∧ 1 ≤ processedCount (runKanji (fun _ => ApiOutcome.ok (some "X"))
          [noteK]))
  ∧ ((runRomaji (fun _ => ApiOutcome.ok (some "ka")) [noteR]).getD 0 dStep =
        ⟨noteR.set "Romanji" "ka", true, 1, 0⟩
      ∧ 1 ≤ processedCount (runRomaji (fun _ => ApiOutcome.ok (some "ka"))
          [noteR])) :=
  ⟨(api_result_written_spec (fun _ => ApiOutcome.ok (some "X")) [noteK] 0 "X"
      (by decide) (by decide) rfl).1 (by decide),
   (api_result_written_spec (fun _ => ApiOutcome.ok (some "ka")) [noteR] 0
      "ka" (by decide) (by decide) rfl).2 (by decide)⟩

/-- C5: a modified note has exactly one field written back: under the
guards and a non-empty API result `s`, the resulting note maps the target
field (`Kanji` resp. `Romanji`) to `s` and every other field — `Kana` and
`English` included — to its previous value. -/
theorem single_field_write_spec (api : Nat → ApiOutcome) (notes : List Note)
    (i : Nat) (s : String) (hi : i < notes.length) (hs : s ≠ "")
    (ha : api i = ApiOutcome.ok (some s)) :
    (kanjiGuards (notes.getD i dNote) →
        ((runKanji api notes).getD i dStep).note.get? "Kanji" = some s
      ∧ ∀ f, f ≠ "Kanji" →
          ((runKanji api notes).getD i dStep).note.get? f =
            (notes.getD i dNote).get? f)
  ∧ (romajiGuards (notes.getD i dNote) →
        ((runRomaji api notes).getD i dStep).note.get? "Romanji" = some s
      ∧ ∀ f, f ≠ "Romanji" →
          ((runRomaji api notes).getD i dStep).note.get? f =
            (notes.getD i dNote).get? f) := by
  constructor
  · intro hg
    have heq : (runKanji api notes).getD i dStep =
        ⟨(notes.getD i dNote).set "Kanji" s, true, 1, 0⟩ := by
      unfold runKanji
      rw [runSteps_getD kanjiStep api 0 i notes hi]
      simp only [Nat.zero_add]
      rw [ha, kanjiStep_some _ s hg, if_neg hs]
    rw [heq]
    exact ⟨Note.get?_set_self _ "Kanji" s hg.2.2.1,
      fun f hf => Note.get?_set_other _ "Kanji" s f hf⟩
  · intro hg
    have heq : (runRomaji api notes).getD i dStep =
        ⟨(notes.getD i dNote).set "Romanji" s, true, 1, 0⟩ := by
      unfold runRomaji
      rw [runSteps_getD romajiStep api 0 i notes hi]
      simp only [Nat.zero_add]
      rw [ha, romajiStep_some _ s hg, if_neg hs]
    rw [heq]
    exact ⟨Note.get?_set_self _ "Romanji" s hg.2.1,
      fun f hf => Note.get?_set_other _ "Romanji" s f hf⟩

/-- C5 witness: in the concrete runs of the C4 scenario the `Kana` and
`English` fields keep their old values and only the target field holds the
API's answer. -/
theorem single_field_write_spec_witness :
    (((runKanji (fun _ => ApiOutcome.ok (some "X")) [noteK]).getD 0
        dStep).note.get? "Kanji" = some "X"
      ∧ ((runKanji (fun _ => ApiOutcome.ok (some "X")) [noteK]).getD 0
        dStep).note.get? "Kana" = noteK.get? "Kana"
      ∧ ((runKanji (fun _ => ApiOutcome.ok (some "X")) [noteK]).getD 0
        dStep).note.get? "English" = noteK.get? "English")
  ∧ (((runRomaji (fun _ => ApiOutcome.ok (some "ka")) [noteR]).getD 0
        dStep).note.get? "Romanji" = some "ka"
      ∧ ((runRomaji (fun _ => ApiOutcome.ok (some "ka")) [noteR]).getD 0
        dStep).note.get? "Kana" = noteR.get? "Kana") := by
  have hK := (single_field_write_spec (fun _ => ApiOutcome.ok (some "X"))
    [noteK] 0 "X" (by decide) (by decide) rfl).1 (by decide)
  have hR := (single_field_write_spec (fun _ => ApiOutcome.ok (some "ka"))
    [noteR] 0 "ka" (by decide) (by decide) rfl).2 (by decide)
  exact ⟨⟨hK.1, hK.2 "Kana" (by decide), hK.2 "English" (by decide)⟩,
    ⟨hR.1, hR.2 "Kana" (by decide)⟩⟩

/-- C6: when no visible window with a `selectedNotes` attribute is found,
or the found browser's selection is empty, `get_selected_notes` returns
the empty list and both operations terminate without running any per-note
step, so no note is modified. -/
theorem empty_selection_spec (windows : List Window) (col : Nat → Note)
    (api : Nat → ApiOutcome)
    (h : findBrowser windows = none ∨
      ∃ b, findBrowser windows = some b ∧ b.selectedNotes = []) :
    get_selected_notes windows col = [] ∧
    generate_kanji windows col api = [] ∧
    generate_romaji windows col api = [] := by
  have hsel : get_selected_notes windows col = [] := by
    rcases h with h | ⟨b, hb, hbs⟩
    · simp [get_selected_notes, h]
    · simp [get_selected_notes, hb, hbs]
  refine ⟨hsel, ?_, ?_⟩
  · simp [generate_kanji, hsel]
  · simp [generate_romaji, hsel]

/-- C6 witness: a single visible window without a `selectedNotes`
attribute yields no selection and empty runs for both operations. -/
theorem empty_selection_spec_witness :
    get_selected_notes [⟨false, true, [1]⟩] (fun _ => noteK) = [] ∧
    generate_kanji [⟨false, true, [1]⟩] (fun _ => noteK)
      (fun _ => ApiOutcome.ok (some "X")) = [] ∧
    generate_romaji [⟨false, true, [1]⟩] (fun _ => noteK)
      (fun _ => ApiOutcome.ok (some "X")) = [] :=
  empty_selection_spec [⟨false, true, [1]⟩] (fun _ => noteK)
    (fun _ => ApiOutcome.ok (some "X")) (Or.inl (by decide))

/-- C7: a failure while processing one note neither aborts the batch nor
rolls anything back: the run has one step result per selected note, each
note's result is a function of that note and its own API outcome alone
(so later notes are still processed and earlier flushes stand), and a
guarded note whose API call raises just adds one to the error counter,
which the reported error total reflects, leaving that note unchanged. -/
theorem error_isolation_spec (api : Nat → ApiOutcome) (notes : List Note)
    (i : Nat) (hi : i < notes.length) :
    (runKanji api notes).length = notes.length
  ∧ (runKanji api notes).getD i dStep =
      kanjiStep (api i) (notes.getD i dNote)
  ∧ (kanjiGuards (notes.getD i dNote) → api i = ApiOutcome.err →
        (runKanji api notes).getD i dStep = ⟨notes.getD i dNote, false, 0, 1⟩
      ∧ 1 ≤ errorCount (runKanji api notes))
  ∧ (runRomaji api notes).length = notes.length
  ∧ (runRomaji api notes).getD i dStep =
      romajiStep (api i) (notes.getD i dNote)
  ∧ (romajiGuards (notes.getD i dNote) → api i = ApiOutcome.err →
        (runRomaji api notes).getD i dStep = ⟨notes.getD i dNote, false, 0, 1⟩
      ∧ 1 ≤ errorCount (runRomaji api notes)) := by
  have hrunK : (runKanji api notes).getD i dStep =
      kanjiStep (api i) (notes.getD i dNote) := by
    unfold runKanji
    rw [runSteps_getD kanjiStep api 0 i notes hi]
    simp
  have hrunR : (runRomaji api notes).getD i dStep =
      romajiStep (api i) (notes.getD i dNote) := by
    unfold runRomaji
    rw [runSteps_getD romajiStep api 0 i notes hi]
    simp
  refine ⟨runSteps_length _ _ _ _, hrunK, ?_, runSteps_length _ _ _ _,
    hrunR, ?_⟩
  · intro hg ha
    have heq : (runKanji api notes).getD i dStep =
        ⟨notes.getD i dNote, false, 0, 1⟩ := by
      rw [hrunK, ha, kanjiStep_err _ hg]
    refine ⟨heq, ?_⟩
    have hlen : i < (runKanji api notes).length := by
      unfold runKanji
      rw [runSteps_length]
      exact hi
    have hb := getD_le_sum StepResult.errorsInc (runKanji api notes) i
      dStep hlen
    rw [heq] at hb
    simpa [errorCount] using hb
  · intro hg ha
    have heq : (runRomaji api notes).getD i dStep =
        ⟨notes.getD i dNote, false, 0, 1⟩ := by
      rw [hrunR, ha, romajiStep_err _ hg]
    refine ⟨heq, ?_⟩
    have hlen : i < (runRomaji api notes).length := by
      unfold runRomaji
      rw [runSteps_length]
      exact hi
    have hb := getD_le_sum StepResult.errorsInc (runRomaji api notes) i
      dStep hlen
    rw [heq] at hb
    simpa [errorCount] using hb

/-- C7 witness: in a two-note kanji run whose first API call raises, the
first note is unchanged with one error counted while the second note is
still processed and written; similarly for a romaji run. -/
theorem error_isolation_spec_witness :
    runKanji (fun i => if i = 0 then ApiOutcome.err
        else ApiOutcome.ok (some "X")) [noteK, noteK]
      = [⟨noteK, false, 0, 1⟩, ⟨noteK.set "Kanji" "X", true, 1, 0⟩]
  ∧ ((runKanji (fun i => if i = 0 then ApiOutcome.err
        else ApiOutcome.ok (some "X")) [noteK, noteK]).getD 0 dStep
      = ⟨noteK, false, 0, 1⟩
  ∧ 1 ≤ errorCount (runKanji (fun i => if i = 0 then ApiOutcome.err
        else ApiOutcome.ok (some "X")) [noteK, noteK]))
  ∧ ((runRomaji (fun _ => ApiOutcome.err) [noteR]).getD 0 dStep
      = ⟨noteR, false, 0, 1⟩
  ∧ 1 ≤ errorCount (runRomaji (fun _ => ApiOutcome.err) [noteR])) := by
  refine ⟨by decide, ?_, ?_⟩
  · exact (error_isolation_spec (fun i => if i = 0 then ApiOutcome.err
      else ApiOutcome.ok (some "X")) [noteK, noteK] 0
      (by decide)).2.2.1 (by decide) rfl
  · exact (error_isolation_spec (fun _ => ApiOutcome.err) [noteR] 0
      (by decide)).2.2.2.2.2 (by decide) rfl

/-- C8: a falsy API value — `none`, standing for a JSON `null` or an
absent key, or the empty string — leaves the guarded note unchanged for
both operations: no field write, no flush, and no `processed` count. -/
theorem falsy_value_unchanged_spec (api : Nat → ApiOutcome)
    (notes : List Note) (i : Nat) (hi : i < notes.length)
    (ha : api i = ApiOutcome.ok none ∨ api i = ApiOutcome.ok (some "")) :
    (kanjiGuards (notes.getD i dNote) →
        (runKanji api notes).getD i dStep =
          ⟨notes.getD i dNote, false, 0, 0⟩)
  ∧ (romajiGuards (notes.getD i dNote) →
        (runRomaji api notes).getD i dStep =
          ⟨notes.getD i dNote, false, 0, 0⟩) := by
  have hrunK : (runKanji api notes).getD i dStep =
      kanjiStep (api i) (notes.getD i dNote) := by
    unfold runKanji
    rw [runSteps_getD kanjiStep api 0 i notes hi]
    simp
  have hrunR : (runRomaji api notes).getD i dStep =
      romajiStep (api i) (notes.getD i dNote) := by
    unfold runRomaji
    rw [runSteps_getD romajiStep api 0 i notes hi]
    simp
  constructor
  · intro hg
    rcases ha with ha | ha
    · rw [hrunK, ha, kanjiStep_none _ hg]
    · rw [hrunK, ha, kanjiStep_some _ "" hg, if_pos rfl]
  · intro hg
    rcases ha with ha | ha
    · rw [hrunR, ha, romajiStep_none _ hg]
    · rw [hrunR, ha, romajiStep_some _ "" hg, if_pos rfl]

/-- C8 witness: a `null` kanji answer leaves the kanji note untouched and
uncounted; an empty romaji answer leaves the romaji note untouched. -/
theorem falsy_value_unchanged_spec_witness :
    (runKanji (fun _ => ApiOutcome.ok none) [noteK]).getD 0 dStep
      = ⟨noteK, false, 0, 0⟩ ∧
    (runRomaji (fun _ => ApiOutcome.ok (some "")) [noteR]).getD 0 dStep
      = ⟨noteR, false, 0, 0⟩ :=
  ⟨(falsy_value_unchanged_spec (fun _ => ApiOutcome.ok none) [noteK] 0
      (by decide) (Or.inl rfl)).1 (by decide),
   (falsy_value_unchanged_spec (fun _ => ApiOutcome.ok (some "")) [noteR] 0
      (by decide) (Or.inr rfl)).2 (by decide)⟩

theorem bool_ne_false (b : Bool) (h : ¬b = false) : b = true := by
  cases b
  · exact absurd rfl h
  · rfl

theorem kanjiStep_read_footprint (api : ApiOutcome) (n₁ n₂ : Note)
    (hKana : n₁.get? "Kana" = n₂.get? "Kana")
    (hEng : n₁.get? "English" = n₂.get? "English")
    (hKanji : n₁.get? "Kanji" = n₂.get? "Kanji") :
    (kanjiStep api n₁).flushed = (kanjiStep api n₂).flushed
  ∧ (kanjiStep api n₁).processedInc = (kanjiStep api n₂).processedInc
  ∧ (kanjiStep api n₁).errorsInc = (kanjiStep api n₂).errorsInc
  ∧ (kanjiStep api n₁).note.get? "Kanji" =
      (kanjiStep api n₂).note.get? "Kanji" := by
  have hbKana : n₁.hasField "Kana" = n₂.hasField "Kana" := by
    unfold Note.hasField
    rw [hKana]
  have hbEng : n₁.hasField "English" = n₂.hasField "English" := by
    unfold Note.hasField
    rw [hEng]
  have hbKanji : n₁.hasField "Kanji" = n₂.hasField "Kanji" := by
    unfold Note.hasField
    rw [hKanji]
  have hgKana : n₁.getField "Kana" = n₂.getField "Kana" := by
    unfold Note.getField
    rw [hKana]
  have hgEng : n₁.getField "English" = n₂.getField "English" := by
    unfold Note.getField
    rw [hEng]
  have hgKanji : n₁.getField "Kanji" = n₂.getField "Kanji" := by
    unfold Note.getField
    rw [hKanji]
  by_cases hmiss : n₂.hasField "Kana" = false ∨ n₂.hasField "English" = false
      ∨ n₂.hasField "Kanji" = false
  · have hmiss1 : n₁.hasField "Kana" = false ∨
        n₁.hasField "English" = false ∨ n₁.hasField "Kanji" = false := by
      rw [hbKana, hbEng, hbKanji]
      exact hmiss
    rw [kanjiStep_missing api n₁ hmiss1, kanjiStep_missing api n₂ hmiss]
    exact ⟨rfl, rfl, rfl, hKanji⟩
  · push_neg at hmiss
    obtain ⟨hA, hB, hC⟩ := hmiss
    have h2Kana := bool_ne_false _ hA
    have h2Eng := bool_ne_false _ hB
    have h2Kanji := bool_ne_false _ hC
    have h1Kana : n₁.hasField "Kana" = true := by rw [hbKana]; exact h2Kana
    have h1Eng : n₁.hasField "English" = true := by rw [hbEng]; exact h2Eng
    have h1Kanji : n₁.hasField "Kanji" = true := by
      rw [hbKanji]
      exact h2Kanji
    by_cases hskip : pyStrip (n₂.getField "Kana") = "" ∨
        pyStrip (n₂.getField "English") = "" ∨
        pyStrip (n₂.getField "Kanji") ≠ ""
    · have hskip1 : pyStrip (n₁.getField "Kana") = "" ∨
          pyStrip (n₁.getField "English") = "" ∨
          pyStrip (n₁.getField "Kanji") ≠ "" := by
        rw [hgKana, hgEng, hgKanji]
        exact hskip
      rw [kanjiStep_skip api n₁ h1Kana h1Eng h1Kanji hskip1,
        kanjiStep_skip api n₂ h2Kana h2Eng h2Kanji hskip]
      exact ⟨rfl, rfl, rfl, hKanji⟩
    · push_neg at hskip
      obtain ⟨hs1, hs2, hs3⟩ := hskip
      have hg2 : kanjiGuards n₂ := ⟨h2Kana, h2Eng, h2Kanji, hs1, hs2, hs3⟩
      have hg1 : kanjiGuards n₁ := by
        refine ⟨h1Kana, h1Eng, h1Kanji, ?_, ?_, ?_⟩
        · rw [hgKana]; exact hs1
        · rw [hgEng]; exact hs2
        · rw [hgKanji]; exact hs3
      cases api with
      | err =>
          rw [kanjiStep_err n₁ hg1, kanjiStep_err n₂ hg2]
          exact ⟨rfl, rfl, rfl, hKanji⟩
      | ok val =>
          cases val with
          | none =>
              rw [kanjiStep_none n₁ hg1, kanjiStep_none n₂ hg2]
              exact ⟨rfl, rfl, rfl, hKanji⟩
          | some s =>
              rw [kanjiStep_some n₁ s hg1, kanjiStep_some n₂ s hg2]
              by_cases hse : s = ""
              · rw [if_pos hse, if_pos hse]
                exact ⟨rfl, rfl, rfl, hKanji⟩
              · rw [if_neg hse, if_neg hse]
                refine ⟨rfl, rfl, rfl, ?_⟩
                rw [Note.get?_set_self n₁ "Kanji" s h1Kanji,
                  Note.get?_set_self n₂ "Kanji" s h2Kanji]

theorem romajiStep_read_footprint (api : ApiOutcome) (n₁ n₂ : Note)
    (hKana : n₁.get? "Kana" = n₂.get? "Kana")
    (hRom : n₁.get? "Romanji" = n₂.get? "Romanji") :
    (romajiStep api n₁).flushed = (romajiStep api n₂).flushed
  ∧ (romajiStep api n₁).processedInc = (romajiStep api n₂).processedInc
  ∧ (romajiStep api n₁).errorsInc = (romajiStep api n₂).errorsInc
  ∧ (romajiStep api n₁).note.get? "Romanji" =
      (romajiStep api n₂).note.get? "Romanji" := by
  have hbKana : n₁.hasField "Kana" = n₂.hasField "Kana" := by
    unfold Note.hasField
    rw [hKana]
  have hbRom : n₁.hasField "Romanji" = n₂.hasField "Romanji" := by
    unfold Note.hasField
    rw [hRom]
  have hgKana : n₁.getField "Kana" = n₂.getField "Kana" := by
    unfold Note.getField
    rw [hKana]
  have hgRom : n₁.getField "Romanji" = n₂.getField "Romanji" := by
    unfold Note.getField
    rw [hRom]
  by_cases hmiss : n₂.hasField "Kana" = false ∨ n₂.hasField "Romanji" = false
  · have hmiss1 : n₁.hasField "Kana" = false ∨
        n₁.hasField "Romanji" = false := by
      rw [hbKana, hbRom]
      exact hmiss
    rw [romajiStep_missing api n₁ hmiss1, romajiStep_missing api n₂ hmiss]
    exact ⟨rfl, rfl, rfl, hRom⟩
  · push_neg at hmiss
    obtain ⟨hA, hB⟩ := hmiss
    have h2Kana := bool_ne_false _ hA
    have h2Rom := bool_ne_false _ hB
    have h1Kana : n₁.hasField "Kana" = true := by rw [hbKana]; exact h2Kana
    have h1Rom : n₁.hasField "Romanji" = true := by rw [hbRom]; exact h2Rom
    by_cases hskip : pyStrip (n₂.getField "Kana") = "" ∨
        pyStrip (n₂.getField "Romanji") ≠ ""
    · have hskip1 : pyStrip (n₁.getField "Kana") = "" ∨
          pyStrip (n₁.getField "Romanji") ≠ "" := by
        rw [hgKana, hgRom]
        exact hskip
      rw [romajiStep_skip api n₁ h1Kana h1Rom hskip1,
        romajiStep_skip api n₂ h2Kana h2Rom hskip]
      exact ⟨rfl, rfl, rfl, hRom⟩
    · push_neg at hskip
      obtain ⟨hs1, hs2⟩ := hskip
      have hg2 : romajiGuards n₂ := ⟨h2Kana, h2Rom, hs1, hs2⟩
      have hg1 : romajiGuards n₁ := by
        refine ⟨h1Kana, h1Rom, ?_, ?_⟩
        · rw [hgKana]; exact hs1
        · rw [hgRom]; exact hs2
      cases api with
      | err =>
          rw [romajiStep_err n₁ hg1, romajiStep_err n₂ hg2]
          exact ⟨rfl, rfl, rfl, hRom⟩
      | ok val =>
          cases val with
          | none =>
              rw [romajiStep_none n₁ hg1, romajiStep_none n₂ hg2]
              exact ⟨rfl, rfl, rfl, hRom⟩
          | some s =>
              rw [romajiStep_some n₁ s hg1, romajiStep_some n₂ s hg2]
              by_cases hse : s = ""
              · rw [if_pos hse, if_pos hse]
                exact ⟨rfl, rfl, rfl, hRom⟩
              · rw [if_neg hse, if_neg hse]
                refine ⟨rfl, rfl, rfl, ?_⟩
                rw [Note.get?_set_self n₁ "Romanji" s h1Rom,
                  Note.get?_set_self n₂ "Romanji" s h2Rom]

/-- Like `noteK` but with an empty `Kana` value. -/
def noteKNoKana : Note := ⟨[("Kana", ""), ("English", "word"), ("Kanji", "")]⟩

/-- Like `noteR` but with an empty `Kana` value. -/
def noteRNoKana : Note := ⟨[("Kana", ""), ("Romanji", "")]⟩

/-- C9: the kanji operation reads exactly the `Kana`, `English` and
`Kanji` fields of a note and the romaji operation exactly `Kana` and
`Romanji`: two notes agreeing on those fields get the same flush, count
and written-target behaviour (reads at most those fields), and changing
any one of them can change the outcome (each field really is read); a
note lacking a required field is skipped unchanged without incrementing
the error count. -/
theorem field_footprint_spec (api : ApiOutcome) (n₁ n₂ m₁ m₂ : Note)
    (hagK : ∀ f, f = "Kana" ∨ f = "English" ∨ f = "Kanji" →
      n₁.get? f = n₂.get? f)
    (hagR : ∀ f, f = "Kana" ∨ f = "Romanji" → m₁.get? f = m₂.get? f) :
    ((kanjiStep api n₁).flushed = (kanjiStep api n₂).flushed
      ∧ (kanjiStep api n₁).processedInc = (kanjiStep api n₂).processedInc
      ∧ (kanjiStep api n₁).errorsInc = (kanjiStep api n₂).errorsInc
      ∧ (kanjiStep api n₁).note.get? "Kanji" =
          (kanjiStep api n₂).note.get? "Kanji")
  ∧ (n₁.hasField "Kana" = false ∨ n₁.hasField "English" = false ∨
        n₁.hasField "Kanji" = false →
      kanjiStep api n₁ = ⟨n₁, false, 0, 0⟩)
  ∧ ((romajiStep api m₁).flushed = (romajiStep api m₂).flushed
      ∧ (romajiStep api m₁).processedInc = (romajiStep api m₂).processedInc
      ∧ (romajiStep api m₁).errorsInc = (romajiStep api m₂).errorsInc
      ∧ (romajiStep api m₁).note.get? "Romanji" =
          (romajiStep api m₂).note.get? "Romanji")
  ∧ (m₁.hasField "Kana" = false ∨ m₁.hasField "Romanji" = false →
      romajiStep api m₁ = ⟨m₁, false, 0, 0⟩)
  ∧ kanjiStep (ApiOutcome.ok (some "X")) noteK ≠
      kanjiStep (ApiOutcome.ok (some "X")) noteKNoKana
  ∧ kanjiStep (ApiOutcome.ok (some "X")) noteK ≠
      kanjiStep (ApiOutcome.ok (some "X")) noteEmptyEnglish
  ∧ kanjiStep (ApiOutcome.ok (some "X")) noteK ≠
      kanjiStep (ApiOutcome.ok (some "X")) noteKDone
  ∧ romajiStep (ApiOutcome.ok (some "y")) noteR ≠
      romajiStep (ApiOutcome.ok (some "y")) noteRNoKana
  ∧ romajiStep (ApiOutcome.ok (some "y")) noteR ≠
      romajiStep (ApiOutcome.ok (some "y")) noteRDone :=
  ⟨kanjiStep_read_footprint api n₁ n₂
      (hagK "Kana" (Or.inl rfl))
      (hagK "English" (Or.inr (Or.inl rfl)))
      (hagK "Kanji" (Or.inr (Or.inr rfl))),
   kanjiStep_missing api n₁,
   romajiStep_read_footprint api m₁ m₂
      (hagR "Kana" (Or.inl rfl))
      (hagR "Romanji" (Or.inr rfl)),
   romajiStep_missing api m₁,
   by decide, by decide, by decide, by decide, by decide⟩

/-- C9 witness: two notes differing outside the `Kana`/`English`/`Kanji`
footprint (an extra `Audio` field) behave identically under the kanji
step, and a note lacking `English` is skipped with no error counted; the
romaji analogue with an extra field and a missing `Romanji` field. -/
theorem field_footprint_spec_witness :
    ((kanjiStep (ApiOutcome.ok (some "X")) noteK).flushed =
      (kanjiStep (ApiOutcome.ok (some "X"))
        ⟨noteK.fields ++ [("Audio", "a.mp3")]⟩).flushed)
  ∧ kanjiStep (ApiOutcome.ok (some "X")) ⟨[("Kana", "ka")]⟩ =
      ⟨⟨[("Kana", "ka")]⟩, false, 0, 0⟩
  ∧ romajiStep (ApiOutcome.ok (some "y")) ⟨[("Kana", "ka")]⟩ =
      ⟨⟨[("Kana", "ka")]⟩, false, 0, 0⟩ := by
  have h := field_footprint_spec (ApiOutcome.ok (some "X")) noteK
    ⟨noteK.fields ++ [("Audio", "a.mp3")]⟩ noteR noteR
    (by intro f hf; rcases hf with h | h | h <;> (subst h; decide))
    (fun f _ => rfl)
  have h2 := field_footprint_spec (ApiOutcome.ok (some "X"))
    ⟨[("Kana", "ka")]⟩ ⟨[("Kana", "ka")]⟩ noteR noteR
    (fun f _ => rfl) (fun f _ => rfl)
  have h3 := field_footprint_spec (ApiOutcome.ok (some "y")) noteK noteK
    ⟨[("Kana", "ka")]⟩ ⟨[("Kana", "ka")]⟩
    (fun f _ => rfl) (fun f _ => rfl)
  exact ⟨h.1.1, h2.2.1 (by decide), h3.2.2.2.1 (by decide)⟩

end AnkiTools
